import Mathlib

/-!
Verification of the conversation-orchestration and usage-accounting core of the
LLMChat Telegram bot, as a shallow embedding of the TypeScript source:
`src/models/conversation.model.ts`, `src/models/usage.model.ts`,
`src/services/conversation.service.ts`, `src/services/usage.service.ts`,
`src/config/openrouter.config.ts`, `src/types/errors.ts`, `src/utils/error.utils.ts`.
Numbers are modelled exactly: token counts as naturals, costs as rationals.
Timestamps are naturals supplied explicitly where the code calls `new Date()`.
-/

namespace LLMChat

/-- Roles permitted by the message schema enum `['user', 'assistant', 'system']`. -/
inductive Role where
  | user
  | assistant
  | system
deriving DecidableEq, Repr

/-- The `{prompt, completion, total}` token triple used on messages and usage records. -/
structure TokenUsage where
  prompt : Nat
  completion : Nat
  total : Nat
deriving DecidableEq, Repr

/-- A message subdocument (`messageSchema` in conversation.model.ts / `IMessage` in types.ts).
`tokens` and `cost` are optional, present only on assistant messages. -/
structure Message where
  role : Role
  content : String
  timestamp : Nat
  model : String
  tokens : Option TokenUsage
  cost : Option ℚ
deriving DecidableEq, Repr

/-- Catalog metadata for one model (`AVAILABLE_MODELS` entries in openrouter.config.ts). -/
structure ModelInfo where
  name : String
  contextWindow : Nat
  costPer1kInput : ℚ
  costPer1kOutput : ℚ
deriving DecidableEq, Repr

/-- The fixed model catalog `AVAILABLE_MODELS` from openrouter.config.ts. -/
def AVAILABLE_MODELS : List (String × ModelInfo) :=
  [ ("openai/o3-mini-high", ⟨"o3-mini-high", 100000, 0.008, 0.024⟩),
    ("google/gemini-2.0-flash-lite-preview-02-05:free",
      ⟨"gemini-2.0-flash-lite-preview-02-05:free", 8192, 0.01, 0.03⟩),
    ("google/gemini-2.0-pro-exp-02-05:free",
      ⟨"gemini-2.0-pro-exp-02-05:free", 4096, 0.001, 0.002⟩),
    ("qwen/qwen-vl-plus:free", ⟨"qwen-vl-plus:free", 8192, 0.0002, 0.0002⟩),
    ("cognitivecomputations/dolphin3.0-r1-mistral-24b:free",
      ⟨"Dolphin Mistral 24B", 16384, 0, 0⟩),
    ("deepseek/deepseek-r1:free", ⟨"deepseek-r1:free", 200000, 0.008, 0.024⟩),
    ("deepseek/deepseek-chat:free", ⟨"deepseek-chat:free", 4096, 0.0007, 0.0007⟩),
    ("openai/o3-mini", ⟨"o3-mini", 8192, 0.0005, 0.0005⟩),
    ("openai/gpt-4o-mini", ⟨"gpt-4o-mini", 4096, 0.0005, 0.0005⟩) ]

/-- Whether a model identifier is a key of `AVAILABLE_MODELS` (the schema enum /
`OpenRouterClient.setModel` validity check). -/
def validModel (model : String) : Bool :=
  (AVAILABLE_MODELS.map Prod.fst).contains model

/-- A conversation document (`conversationSchema` / `IConversation`). -/
structure Conversation where
  id : Nat
  userId : Nat
  title : Option String
  messages : List Message
  model : String
  totalTokens : Nat
  totalCost : ℚ
  lastMessageAt : Nat
deriving DecidableEq, Repr

/-- `msg.tokens?.total || 0` from the pre-save hook. -/
def msgTokensTotal (m : Message) : Nat :=
  match m.tokens with
  | some t => t.total
  | none => 0

/-- `msg.cost || 0` from the pre-save hook (a cost of `0` is mapped to `0` by
JavaScript's `||`, so the value is unchanged in every case). -/
def msgCost (m : Message) : ℚ :=
  match m.cost with
  | some c => c
  | none => 0

/-- The `conversationSchema.pre('save')` hook when `messages` was modified:
sets `lastMessageAt` and recomputes `totalTokens` / `totalCost` with `reduce`
over the full message list. -/
def recomputeTotals (c : Conversation) (now : Nat) : Conversation :=
  { c with
    lastMessageAt := now,
    totalTokens := c.messages.foldl (fun sum m => sum + msgTokensTotal m) 0,
    totalCost := c.messages.foldl (fun sum m => sum + msgCost m) 0 }

/-- Instance method `addMessage`: push the message, then save (the save triggers
the pre-save recompute because `messages` is modified). -/
def Conversation.addMessage (c : Conversation) (message : Message) (now : Nat) : Conversation :=
  recomputeTotals { c with messages := c.messages ++ [message] } now

/-- Instance method `clearHistory`: empty `messages`, zero the totals, then save
(the pre-save recompute runs again over the now-empty list). -/
def Conversation.clearHistory (c : Conversation) (now : Nat) : Conversation :=
  recomputeTotals { c with messages := [], totalTokens := 0, totalCost := 0 } now

/-- Instance method `getContext`: `this.messages.slice(-limit)`. For a
nonnegative `limit`, JavaScript's `slice(-limit)` takes the suffix starting at
`max(length - limit, 0)`, except that `-0` is `0`, so `limit = 0` yields the
whole array. Nat subtraction is saturating, matching the `max`. -/
def Conversation.getContext (c : Conversation) (limit : Nat := 10) : List Message :=
  if limit = 0 then c.messages
  else c.messages.drop (c.messages.length - limit)

/-- Instance method `updateModel`: set the `model` path (validation and
persistence happen at save time, modelled in the service layer below). -/
def Conversation.updateModel (c : Conversation) (model : String) : Conversation :=
  { c with model := model }

/-- Spec-side invariant (§3 of the spec): the stored totals equal the sums of
`tokens.total` / `cost` over the messages that carry the respective datum. -/
def totalsInvariant (c : Conversation) : Prop :=
  c.totalTokens = ((c.messages.filterMap Message.tokens).map TokenUsage.total).sum ∧
  c.totalCost = (c.messages.filterMap Message.cost).sum

/-- A sequence of `addMessage` calls, each with its own timestamp. -/
def applyMessages (c : Conversation) (entries : List (Message × Nat)) : Conversation :=
  entries.foldl (fun conv e => conv.addMessage e.1 e.2) c

theorem foldl_add_eq_sum {α M : Type} [AddCommMonoid M] (f : α → M) (l : List α) (a : M) :
    l.foldl (fun s x => s + f x) a = a + (l.map f).sum := by
  induction l generalizing a with
  | nil => simp
  | cons x xs ih => simp [ih, add_assoc]

theorem map_msgTokensTotal_sum (l : List Message) :
    (l.map msgTokensTotal).sum = ((l.filterMap Message.tokens).map TokenUsage.total).sum := by
  induction l with
  | nil => rfl
  | cons m ms ih =>
    cases h : m.tokens <;> simp [msgTokensTotal, h, ih]

theorem map_msgCost_sum (l : List Message) :
    (l.map msgCost).sum = (l.filterMap Message.cost).sum := by
  induction l with
  | nil => rfl
  | cons m ms ih =>
    cases h : m.cost <;> simp [msgCost, h, ih]

theorem totalsInvariant_recompute (c : Conversation) (now : Nat) :
    totalsInvariant (recomputeTotals c now) := by
  constructor
  · show (recomputeTotals c now).totalTokens = _
    rw [show (recomputeTotals c now).totalTokens =
        c.messages.foldl (fun sum m => sum + msgTokensTotal m) 0 from rfl,
      foldl_add_eq_sum, map_msgTokensTotal_sum]
    simp [recomputeTotals]
  · show (recomputeTotals c now).totalCost = _
    rw [show (recomputeTotals c now).totalCost =
        c.messages.foldl (fun sum m => sum + msgCost m) 0 from rfl,
      foldl_add_eq_sum, map_msgCost_sum]
    simp [recomputeTotals]

theorem totalsInvariant_addMessage (c : Conversation) (m : Message) (now : Nat) :
    totalsInvariant (c.addMessage m now) :=
  totalsInvariant_recompute _ now

/-- Claim C1: for every conversation and every sequence of `addMessage` calls
applied to it, `totalTokens` equals the sum of `tokens.total` over the messages
that carry token data and `totalCost` equals the sum of `cost` over the messages
that carry cost data (messages lacking the datum contribute zero). The pre-save
hook recomputes both totals from the full message list on every append, so the
invariant is re-established by each call and preserved from any state already
satisfying it (in particular from the freshly created empty conversation). -/
theorem totals_invariant_after_appends (c : Conversation) (entries : List (Message × Nat))
    (h : totalsInvariant c) : totalsInvariant (applyMessages c entries) := by
  induction entries generalizing c with
  | nil => exact h
  | cons e es ih =>
    exact ih (c.addMessage e.1 e.2) (totalsInvariant_addMessage c e.1 e.2)

/-- A freshly created conversation as `ConversationService.createConversation`
builds it: empty messages, zeroed totals. -/
def freshConversation (id userId : Nat) (model : String) (now : Nat) : Conversation :=
  { id := id, userId := userId, title := none, messages := [], model := model,
    totalTokens := 0, totalCost := 0, lastMessageAt := now }

def witnessMsgA : Message :=
  { role := .user, content := "hello", timestamp := 1,
    model := "openai/o3-mini", tokens := none, cost := none }

def witnessMsgB : Message :=
  { role := .assistant, content := "hi there", timestamp := 2,
    model := "openai/o3-mini", tokens := some ⟨5, 7, 12⟩, cost := some 0.003 }

theorem totals_invariant_after_appends_witness :
    totalsInvariant (freshConversation 1 1 "openai/o3-mini" 0) ∧
    totalsInvariant (applyMessages (freshConversation 1 1 "openai/o3-mini" 0)
      [(witnessMsgA, 1), (witnessMsgB, 2)]) :=
  ⟨⟨rfl, rfl⟩,
   totals_invariant_after_appends (freshConversation 1 1 "openai/o3-mini" 0)
     [(witnessMsgA, 1), (witnessMsgB, 2)] ⟨rfl, rfl⟩⟩

/-- Claim C6: for a positive `limit`, `getContext` returns the last
`min limit length` messages of the conversation, in chronological order: the
result is a suffix of `messages` of that length, and when the conversation
holds at most `limit` messages it is the entire list. -/
theorem getContext_last_window (c : Conversation) (limit : Nat) (h : 0 < limit) :
    (c.getContext limit).length = min limit c.messages.length ∧
    (c.getContext limit).IsSuffix c.messages ∧
    (c.messages.length ≤ limit → c.getContext limit = c.messages) := by
  have hne : limit ≠ 0 := Nat.pos_iff_ne_zero.mp h
  refine ⟨?_, ?_, ?_⟩
  · simp only [Conversation.getContext, if_neg hne, List.length_drop]
    omega
  · simp only [Conversation.getContext, if_neg hne]
    exact List.drop_suffix _ _
  · intro hle
    simp only [Conversation.getContext, if_neg hne]
    have : c.messages.length - limit = 0 := by omega
    simp [this]

/-- A conversation holding 15 distinct messages, for the context-window witness. -/
def conv15 : Conversation :=
  { id := 2, userId := 1, title := none,
    messages := (List.range 15).map fun i =>
      { role := .user, content := toString i, timestamp := i,
        model := "openai/o3-mini", tokens := none, cost := none },
    model := "openai/o3-mini", totalTokens := 0, totalCost := 0, lastMessageAt := 0 }

theorem getContext_last_window_witness :
    0 < 10 ∧
    ((conv15.getContext 10).length = min 10 conv15.messages.length ∧
     (conv15.getContext 10).IsSuffix conv15.messages ∧
     (conv15.messages.length ≤ 10 → conv15.getContext 10 = conv15.messages)) :=
  ⟨by decide, getContext_last_window conv15 10 (by decide)⟩

/-- Claim C10: `getContext` with `limit = 0` returns the entire message list
(nonempty when the conversation has messages), because `slice(-0)` is
`slice(0)`. -/
theorem getContext_zero_returns_all (c : Conversation) (h : c.messages ≠ []) :
    c.getContext 0 = c.messages ∧ c.getContext 0 ≠ [] := by
  refine ⟨rfl, ?_⟩
  simpa [Conversation.getContext] using h

def conv1msg : Conversation :=
  { id := 3, userId := 1, title := none, messages := [witnessMsgA],
    model := "openai/o3-mini", totalTokens := 0, totalCost := 0, lastMessageAt := 0 }

theorem getContext_zero_returns_all_witness :
    conv1msg.messages ≠ [] ∧
    (conv1msg.getContext 0 = conv1msg.messages ∧ conv1msg.getContext 0 ≠ []) :=
  ⟨by decide, getContext_zero_returns_all conv1msg (by decide)⟩

/-- A usage-ledger row (`usageSchema` / `IUsage` from usage.model.ts). -/
structure UsageRecord where
  userId : Nat
  conversationId : Nat
  model : String
  tokens : TokenUsage
  cost : ℚ
  timestamp : Nat
deriving DecidableEq, Repr

/-- The per-group accumulator of the first `$group` stage of `getUserUsage`
(and of the `(model, userId)` stage of `getGlobalStats`): summed `tokens.total`
and summed `cost`. -/
structure ModelAgg where
  tokens : Nat
  cost : ℚ
deriving DecidableEq, Repr

/-- One `$group` step: fold a document into the list of groups, keyed by `key`,
adding its token total and cost to the matching group (groups are kept in first
appearance order, a determinization of the unspecified `$group` output order). -/
def upsertAgg {κ : Type} [DecidableEq κ] (groups : List (κ × ModelAgg))
    (key : κ) (tokens : Nat) (cost : ℚ) : List (κ × ModelAgg) :=
  match groups with
  | [] => [(key, ⟨tokens, cost⟩)]
  | g :: rest =>
    if g.1 = key then (g.1, ⟨g.2.tokens + tokens, g.2.cost + cost⟩) :: rest
    else g :: upsertAgg rest key tokens cost

/-- Result shape of `Usage.getUserUsage`; `modelBreakdown` is the
`$arrayToObject` map, kept as an association list. -/
structure UserUsageSummary where
  totalTokens : Nat
  totalCost : ℚ
  modelBreakdown : List (String × ModelAgg)
deriving DecidableEq, Repr

/-- Static `Usage.getUserUsage`: `$match` on `userId`, `$group` by model summing
`tokens.total` and `cost`, then a final `$group` summing the per-model rows into
`totalTokens` / `totalCost` and pushing the rows into `modelBreakdown`. The
empty pipeline output falls back to zeroed totals and an empty map, which
coincides with folding over no rows. -/
def getUserUsage (usages : List UsageRecord) (userId : Nat) : UserUsageSummary :=
  let matched := usages.filter fun r => r.userId = userId
  let perModel := matched.foldl (fun gs r => upsertAgg gs r.model r.tokens.total r.cost) []
  { totalTokens := (perModel.map fun g => g.2.tokens).sum,
    totalCost := (perModel.map fun g => g.2.cost).sum,
    modelBreakdown := perModel }

/-- The per-model accumulator of the second `$group` stage of `getGlobalStats`:
summed tokens, summed cost, and `users` counting the collapsed
`(model, userId)` rows folded in (`$sum: 1`). -/
structure ModelUsageAgg where
  tokens : Nat
  cost : ℚ
  users : Nat
deriving DecidableEq, Repr

/-- One step of the second `$group` of `getGlobalStats`: fold one collapsed
`(model, userId)` row into the per-model groups, adding `1` to `users`. -/
def upsertUsers (groups : List (String × ModelUsageAgg))
    (model : String) (tokens : Nat) (cost : ℚ) : List (String × ModelUsageAgg) :=
  match groups with
  | [] => [(model, ⟨tokens, cost, 1⟩)]
  | g :: rest =>
    if g.1 = model then (g.1, ⟨g.2.tokens + tokens, g.2.cost + cost, g.2.users + 1⟩) :: rest
    else g :: upsertUsers rest model tokens cost

/-- Result shape of `Usage.getGlobalStats`. -/
structure GlobalStats where
  totalTokens : Nat
  totalCost : ℚ
  activeUsers : Nat
  modelUsage : List (String × ModelUsageAgg)
deriving DecidableEq, Repr

/-- First `$group` stage of `Usage.getGlobalStats`: collapse the ledger to one
row per `(model, userId)` pair, summing `tokens.total` and `cost`. -/
def globalStage1 (usages : List UsageRecord) : List ((String × Nat) × ModelAgg) :=
  usages.foldl (fun gs r => upsertAgg gs (r.model, r.userId) r.tokens.total r.cost) []

/-- Second `$group` stage of `Usage.getGlobalStats`: group the collapsed rows
by model, summing tokens and cost and counting the rows as `users`. -/
def globalStage2 (usages : List UsageRecord) : List (String × ModelUsageAgg) :=
  (globalStage1 usages).foldl (fun gs g => upsertUsers gs g.1.1 g.2.tokens g.2.cost) []

/-- Static `Usage.getGlobalStats`: the two grouping stages above followed by the
final `$group` summing everything overall, with `activeUsers := $sum of users`. -/
def getGlobalStats (usages : List UsageRecord) : GlobalStats :=
  { totalTokens := ((globalStage2 usages).map fun g => g.2.tokens).sum,
    totalCost := ((globalStage2 usages).map fun g => g.2.cost).sum,
    activeUsers := ((globalStage2 usages).map fun g => g.2.users).sum,
    modelUsage := globalStage2 usages }

/-- Lookup of a key in an aggregation group list (reading the
`$arrayToObject` result at one key). -/
def lookupAgg {κ : Type} [DecidableEq κ] (gs : List (κ × ModelAgg)) (k : κ) :
    Option ModelAgg :=
  (gs.find? fun g => g.1 = k).map Prod.snd

/-- Lookup in the per-model `modelUsage` list of `getGlobalStats`. -/
def lookupUsage (gs : List (String × ModelUsageAgg)) (m : String) :
    Option ModelUsageAgg :=
  (gs.find? fun g => g.1 = m).map Prod.snd

/-- First-appearance-order list of the distinct elements of a list. -/
def distinctKeys {κ : Type} [DecidableEq κ] (l : List κ) : List κ :=
  l.foldl (fun acc k => if k ∈ acc then acc else acc ++ [k]) []

theorem upsertAgg_sum_tokens {κ : Type} [DecidableEq κ] (gs : List (κ × ModelAgg))
    (k : κ) (t : Nat) (c : ℚ) :
    ((upsertAgg gs k t c).map fun g => g.2.tokens).sum =
      ((gs.map fun g => g.2.tokens).sum) + t := by
  induction gs with
  | nil => simp [upsertAgg]
  | cons g rest ih =>
    by_cases h : g.1 = k
    · simp [upsertAgg, h]
      omega
    · simp [upsertAgg, h, ih]
      omega

theorem upsertAgg_sum_cost {κ : Type} [DecidableEq κ] (gs : List (κ × ModelAgg))
    (k : κ) (t : Nat) (c : ℚ) :
    ((upsertAgg gs k t c).map fun g => g.2.cost).sum =
      ((gs.map fun g => g.2.cost).sum) + c := by
  induction gs with
  | nil => simp [upsertAgg]
  | cons g rest ih =>
    by_cases h : g.1 = k
    · simp [upsertAgg, h]
      ring
    · simp [upsertAgg, h, ih]
      ring

theorem fold_upsertAgg_sum_tokens {κ : Type} [DecidableEq κ] (key : UsageRecord → κ)
    (rs : List UsageRecord) (gs : List (κ × ModelAgg)) :
    (((rs.foldl (fun gs r => upsertAgg gs (key r) r.tokens.total r.cost) gs).map
        fun g => g.2.tokens).sum) =
      (gs.map fun g => g.2.tokens).sum + (rs.map fun r => r.tokens.total).sum := by
  induction rs generalizing gs with
  | nil => simp
  | cons r rest ih =>
    simp only [List.foldl_cons, List.map_cons, List.sum_cons, ih, upsertAgg_sum_tokens]
    omega

theorem fold_upsertAgg_sum_cost {κ : Type} [DecidableEq κ] (key : UsageRecord → κ)
    (rs : List UsageRecord) (gs : List (κ × ModelAgg)) :
    (((rs.foldl (fun gs r => upsertAgg gs (key r) r.tokens.total r.cost) gs).map
        fun g => g.2.cost).sum) =
      (gs.map fun g => g.2.cost).sum + (rs.map fun r => r.cost).sum := by
  induction rs generalizing gs with
  | nil => simp
  | cons r rest ih =>
    simp only [List.foldl_cons, List.map_cons, List.sum_cons, ih, upsertAgg_sum_cost]
    ring

/-- Extending an optional group accumulator with a batch of matched records. -/
def aggOfFold (base : Option ModelAgg) (ms : List UsageRecord) : Option ModelAgg :=
  match base, ms with
  | none, [] => none
  | none, ms => some ⟨(ms.map fun r => r.tokens.total).sum, (ms.map fun r => r.cost).sum⟩
  | some a, ms => some ⟨a.tokens + (ms.map fun r => r.tokens.total).sum,
                        a.cost + (ms.map fun r => r.cost).sum⟩

theorem lookupAgg_cons {κ : Type} [DecidableEq κ] (g : κ × ModelAgg)
    (rest : List (κ × ModelAgg)) (k : κ) :
    lookupAgg (g :: rest) k = if g.1 = k then some g.2 else lookupAgg rest k := by
  by_cases h : g.1 = k <;> simp [lookupAgg, List.find?_cons, h]

theorem lookupAgg_upsertAgg_self {κ : Type} [DecidableEq κ] (gs : List (κ × ModelAgg))
    (k : κ) (t : Nat) (c : ℚ) :
    lookupAgg (upsertAgg gs k t c) k =
      some (match lookupAgg gs k with
            | some a => ⟨a.tokens + t, a.cost + c⟩
            | none => ⟨t, c⟩) := by
  induction gs with
  | nil => simp [upsertAgg, lookupAgg]
  | cons g rest ih =>
    by_cases h : g.1 = k
    · simp [upsertAgg, h, lookupAgg_cons]
    · simp [upsertAgg, h, lookupAgg_cons, ih]

theorem lookupAgg_upsertAgg_ne {κ : Type} [DecidableEq κ] (gs : List (κ × ModelAgg))
    (k k' : κ) (t : Nat) (c : ℚ) (h : k' ≠ k) :
    lookupAgg (upsertAgg gs k t c) k' = lookupAgg gs k' := by
  induction gs with
  | nil => simp [upsertAgg, lookupAgg_cons, Ne.symm h, lookupAgg]
  | cons g rest ih =>
    by_cases hg : g.1 = k
    · simp [upsertAgg, hg, lookupAgg_cons, Ne.symm h]
    · simp [upsertAgg, hg, lookupAgg_cons, ih]

theorem lookupAgg_fold {κ : Type} [DecidableEq κ] (key : UsageRecord → κ)
    (rs : List UsageRecord) (gs : List (κ × ModelAgg)) (k : κ) :
    lookupAgg (rs.foldl (fun gs r => upsertAgg gs (key r) r.tokens.total r.cost) gs) k =
      aggOfFold (lookupAgg gs k) (rs.filter fun r => key r = k) := by
  induction rs generalizing gs with
  | nil =>
    cases h : lookupAgg gs k <;> simp [aggOfFold, h]
  | cons r rest ih =>
    simp only [List.foldl_cons]
    rw [ih]
    by_cases hk : key r = k
    · rw [hk, lookupAgg_upsertAgg_self]
      rw [List.filter_cons_of_pos (by simp [hk])]
      cases hb : lookupAgg gs k with
      | none =>
        cases hrest : rest.filter (fun r => decide (key r = k)) with
        | nil => simp [aggOfFold]
        | cons x xs => simp [aggOfFold]
      | some a =>
        simp only [aggOfFold, List.map_cons, List.sum_cons, Option.some.injEq,
          ModelAgg.mk.injEq]
        constructor <;> ring
    · rw [lookupAgg_upsertAgg_ne gs (key r) k r.tokens.total r.cost (Ne.symm hk)]
      rw [List.filter_cons_of_neg (by simp [hk])]

theorem filter_comm_decide {α : Type} (p q : α → Prop) [DecidablePred p] [DecidablePred q]
    (l : List α) :
    (l.filter fun a => decide (p a)).filter (fun a => decide (q a)) =
      l.filter fun a => decide (p a ∧ q a) := by
  induction l with
  | nil => rfl
  | cons x xs ih =>
    by_cases hp : p x <;> by_cases hq : q x <;>
      simp [List.filter_cons, hp, hq, ih]

theorem aggOfFold_eq_ite (ms : List UsageRecord) :
    aggOfFold none ms =
      if ms = [] then none
      else some ⟨(ms.map fun r => r.tokens.total).sum, (ms.map fun r => r.cost).sum⟩ := by
  cases ms <;> simp [aggOfFold]

/-- The three UsageRecords of claim C4's concrete example (all owned by user 1),
plus one record of another owner that the `$match` stage must exclude. -/
def exampleRecordsC4 : List UsageRecord :=
  [ ⟨1, 1, "A", ⟨60, 40, 100⟩, 0.01, 1⟩,
    ⟨1, 1, "A", ⟨30, 20, 50⟩, 0.005, 2⟩,
    ⟨1, 2, "B", ⟨6, 4, 10⟩, 0.001, 3⟩,
    ⟨2, 3, "A", ⟨1, 1, 2⟩, 0.5, 4⟩ ]

/-- Claim C4: `getUserUsage` aggregates over exactly the usage records of the
given owner: its overall totals are the sums of `tokens.total` and `cost` over
the owner's records, its `modelBreakdown` maps each model the owner used to
the sums over the owner's records for that model (and holds no other keys),
and on the spec's three-record example for user 1 it returns
`totalTokens = 160`, `totalCost = 0.016`,
`modelBreakdown = [A: (150, 0.015), B: (10, 0.001)]`. -/
theorem getUserUsage_aggregates (usages : List UsageRecord) (userId : Nat) :
    (getUserUsage usages userId).totalTokens =
      ((usages.filter fun r => r.userId = userId).map fun r => r.tokens.total).sum ∧
    (getUserUsage usages userId).totalCost =
      ((usages.filter fun r => r.userId = userId).map fun r => r.cost).sum ∧
    (∀ m : String,
      lookupAgg (getUserUsage usages userId).modelBreakdown m =
        (if (usages.filter fun r => r.userId = userId ∧ r.model = m) = [] then none
         else some
           ⟨((usages.filter fun r => r.userId = userId ∧ r.model = m).map
               fun r => r.tokens.total).sum,
            ((usages.filter fun r => r.userId = userId ∧ r.model = m).map
               fun r => r.cost).sum⟩)) ∧
    getUserUsage exampleRecordsC4 1 =
      { totalTokens := 160, totalCost := 0.016,
        modelBreakdown := [("A", ⟨150, 0.015⟩), ("B", ⟨10, 0.001⟩)] } := by
  refine ⟨?_, ?_, ?_, by
    norm_num [getUserUsage, exampleRecordsC4, upsertAgg, lookupAgg,
      show ("A" : String) ≠ "B" from by decide]⟩
  · show ((((usages.filter fun r => r.userId = userId).foldl
      (fun gs r => upsertAgg gs r.model r.tokens.total r.cost) []).map
        fun g => g.2.tokens).sum) = _
    rw [fold_upsertAgg_sum_tokens UsageRecord.model]
    simp
  · show ((((usages.filter fun r => r.userId = userId).foldl
      (fun gs r => upsertAgg gs r.model r.tokens.total r.cost) []).map
        fun g => g.2.cost).sum) = _
    rw [fold_upsertAgg_sum_cost UsageRecord.model]
    simp
  · intro m
    show lookupAgg ((usages.filter fun r => r.userId = userId).foldl
      (fun gs r => upsertAgg gs r.model r.tokens.total r.cost) []) m = _
    rw [lookupAgg_fold UsageRecord.model]
    have hnil : lookupAgg ([] : List (String × ModelAgg)) m = none := rfl
    rw [hnil,
      filter_comm_decide (fun r : UsageRecord => r.userId = userId)
        (fun r : UsageRecord => r.model = m),
      aggOfFold_eq_ite]

theorem upsertUsers_sum_users (gs : List (String × ModelUsageAgg))
    (m : String) (t : Nat) (c : ℚ) :
    ((upsertUsers gs m t c).map fun g => g.2.users).sum =
      ((gs.map fun g => g.2.users).sum) + 1 := by
  induction gs with
  | nil => simp [upsertUsers]
  | cons g rest ih =>
    by_cases h : g.1 = m
    · simp [upsertUsers, h]
      omega
    · simp [upsertUsers, h, ih]
      omega

theorem fold_upsertUsers_sum_users {α : Type} (f : α → String) (tk : α → Nat) (ck : α → ℚ)
    (l : List α) (gs : List (String × ModelUsageAgg)) :
    (((l.foldl (fun gs x => upsertUsers gs (f x) (tk x) (ck x)) gs).map
        fun g => g.2.users).sum) =
      (gs.map fun g => g.2.users).sum + l.length := by
  induction l generalizing gs with
  | nil => simp
  | cons x rest ih =>
    simp only [List.foldl_cons, List.length_cons, ih, upsertUsers_sum_users]
    omega

theorem upsertAgg_keys {κ : Type} [DecidableEq κ] (gs : List (κ × ModelAgg))
    (k : κ) (t : Nat) (c : ℚ) :
    (upsertAgg gs k t c).map Prod.fst =
      if k ∈ gs.map Prod.fst then gs.map Prod.fst else gs.map Prod.fst ++ [k] := by
  induction gs with
  | nil => simp [upsertAgg]
  | cons g rest ih =>
    by_cases h : g.1 = k
    · simp [upsertAgg, h]
    · by_cases hm : k ∈ rest.map Prod.fst <;>
        simp [upsertAgg, h, ih, hm, Ne.symm h]

theorem fold_upsertAgg_keys {κ : Type} [DecidableEq κ] (key : UsageRecord → κ)
    (rs : List UsageRecord) (gs : List (κ × ModelAgg)) :
    (rs.foldl (fun gs r => upsertAgg gs (key r) r.tokens.total r.cost) gs).map Prod.fst =
      rs.foldl (fun acc r => if key r ∈ acc then acc else acc ++ [key r])
        (gs.map Prod.fst) := by
  induction rs generalizing gs with
  | nil => rfl
  | cons r rest ih =>
    simp only [List.foldl_cons, ih, upsertAgg_keys]

theorem distinctKeys_aux_length_le {κ : Type} [DecidableEq κ] (l : List κ) (acc : List κ) :
    acc.length ≤ (l.foldl (fun acc k => if k ∈ acc then acc else acc ++ [k]) acc).length := by
  induction l generalizing acc with
  | nil => simp
  | cons x xs ih =>
    refine le_trans ?_ (ih (if x ∈ acc then acc else acc ++ [x]))
    by_cases h : x ∈ acc <;> simp [h]

theorem distinctKeys_nil_iff {κ : Type} [DecidableEq κ] (l : List κ) :
    distinctKeys l = [] ↔ l = [] := by
  constructor
  · intro h
    cases l with
    | nil => rfl
    | cons x xs =>
      exfalso
      have h1 : (1 : Nat) ≤ (distinctKeys (x :: xs)).length := by
        have := distinctKeys_aux_length_le xs [x]
        simpa [distinctKeys] using this
      rw [h] at h1
      simp at h1
  · rintro rfl
    rfl

theorem distinctKeys_aux_filter {κ : Type} [DecidableEq κ] (p : κ → Bool)
    (l : List κ) (acc : List κ) :
    (l.foldl (fun acc k => if k ∈ acc then acc else acc ++ [k]) acc).filter p =
      (l.filter p).foldl (fun acc k => if k ∈ acc then acc else acc ++ [k])
        (acc.filter p) := by
  induction l generalizing acc with
  | nil => rfl
  | cons x xs ih =>
    simp only [List.foldl_cons, ih, List.filter_cons]
    by_cases hp : p x
    · simp only [hp, ite_true, List.foldl_cons]
      by_cases hm : x ∈ acc
      · have : x ∈ acc.filter p := List.mem_filter.mpr ⟨hm, hp⟩
        simp [hm, this]
      · have : x ∉ acc.filter p := fun hc => hm (List.mem_filter.mp hc).1
        simp [hm, this, List.filter_append, hp]
    · simp only [hp]
      by_cases hm : x ∈ acc
      · simp [hm]
      · simp [hm, List.filter_append, hp]

theorem distinctKeys_filter {κ : Type} [DecidableEq κ] (p : κ → Bool) (l : List κ) :
    (distinctKeys l).filter p = distinctKeys (l.filter p) := by
  simpa [distinctKeys] using distinctKeys_aux_filter p l []

theorem lookupUsage_cons (g : String × ModelUsageAgg) (rest : List (String × ModelUsageAgg))
    (m : String) :
    lookupUsage (g :: rest) m = if g.1 = m then some g.2 else lookupUsage rest m := by
  by_cases h : g.1 = m <;> simp [lookupUsage, List.find?_cons, h]

theorem lookupUsage_upsertUsers_self (gs : List (String × ModelUsageAgg))
    (m : String) (t : Nat) (c : ℚ) :
    lookupUsage (upsertUsers gs m t c) m =
      some (match lookupUsage gs m with
            | some a => ⟨a.tokens + t, a.cost + c, a.users + 1⟩
            | none => ⟨t, c, 1⟩) := by
  induction gs with
  | nil => simp [upsertUsers, lookupUsage]
  | cons g rest ih =>
    by_cases h : g.1 = m
    · simp [upsertUsers, h, lookupUsage_cons]
    · simp [upsertUsers, h, lookupUsage_cons, ih]

theorem lookupUsage_upsertUsers_ne (gs : List (String × ModelUsageAgg))
    (m m' : String) (t : Nat) (c : ℚ) (h : m' ≠ m) :
    lookupUsage (upsertUsers gs m t c) m' = lookupUsage gs m' := by
  induction gs with
  | nil => simp [upsertUsers, lookupUsage_cons, Ne.symm h, lookupUsage]
  | cons g rest ih =>
    by_cases hg : g.1 = m
    · simp [upsertUsers, hg, lookupUsage_cons, Ne.symm h]
    · simp [upsertUsers, hg, lookupUsage_cons, ih]

/-- Extending an optional per-model accumulator with a batch of collapsed rows
(each contributing `1` to `users`). -/
def usageOfFold {α : Type} (tk : α → Nat) (ck : α → ℚ)
    (base : Option ModelUsageAgg) (ms : List α) : Option ModelUsageAgg :=
  match base, ms with
  | none, [] => none
  | none, ms => some ⟨(ms.map tk).sum, (ms.map ck).sum, ms.length⟩
  | some a, ms => some ⟨a.tokens + (ms.map tk).sum, a.cost + (ms.map ck).sum,
                        a.users + ms.length⟩

theorem lookupUsage_fold {α : Type} (f : α → String) (tk : α → Nat) (ck : α → ℚ)
    (l : List α) (gs : List (String × ModelUsageAgg)) (m : String) :
    lookupUsage (l.foldl (fun gs x => upsertUsers gs (f x) (tk x) (ck x)) gs) m =
      usageOfFold tk ck (lookupUsage gs m) (l.filter fun x => f x = m) := by
  induction l generalizing gs with
  | nil =>
    cases h : lookupUsage gs m <;> simp [usageOfFold, h]
  | cons x rest ih =>
    simp only [List.foldl_cons]
    rw [ih]
    by_cases hm : f x = m
    · rw [hm, lookupUsage_upsertUsers_self]
      rw [List.filter_cons_of_pos (by simp [hm])]
      cases hb : lookupUsage gs m with
      | none =>
        cases hrest : rest.filter (fun x => decide (f x = m)) with
        | nil => simp [usageOfFold]
        | cons y ys => simp [usageOfFold]; omega
      | some a =>
        simp only [usageOfFold, List.map_cons, List.sum_cons, List.length_cons,
          Option.some.injEq, ModelUsageAgg.mk.injEq]
        refine ⟨by ring, by ring, by omega⟩
    · rw [lookupUsage_upsertUsers_ne gs (f x) m (tk x) (ck x) (Ne.symm hm)]
      rw [List.filter_cons_of_neg (by simp [hm])]

theorem usageOfFold_none_users {α : Type} (tk : α → Nat) (ck : α → ℚ) (ms : List α) :
    (usageOfFold tk ck none ms).map ModelUsageAgg.users =
      if ms.isEmpty then none else some ms.length := by
  cases ms <;> simp [usageOfFold]

theorem globalStage1_keys (usages : List UsageRecord) :
    (globalStage1 usages).map Prod.fst =
      distinctKeys (usages.map fun r => (r.model, r.userId)) := by
  rw [globalStage1, fold_upsertAgg_keys (fun r => (r.model, r.userId))]
  simp [distinctKeys, List.foldl_map]

theorem globalStage1_length (usages : List UsageRecord) :
    (globalStage1 usages).length =
      (distinctKeys (usages.map fun r => (r.model, r.userId))).length := by
  rw [← globalStage1_keys, List.length_map]

theorem filter_fst_map {A B : Type} (p : A → Bool) (l : List (A × B)) :
    (l.filter fun g => p g.1).map Prod.fst = (l.map Prod.fst).filter p := by
  induction l with
  | nil => rfl
  | cons x xs ih => by_cases h : p x.1 <;> simp [List.filter_cons, h, ih]

theorem map_filter_comm {A B : Type} (f : A → B) (q : B → Bool) (l : List A) :
    (l.map f).filter q = (l.filter fun a => q (f a)).map f := by
  induction l with
  | nil => rfl
  | cons x xs ih => by_cases h : q (f x) <;> simp [List.filter_cons, h, ih]

theorem stage1_filter_keys (usages : List UsageRecord) (m : String) :
    ((globalStage1 usages).filter fun g => g.1.1 = m).map Prod.fst =
      distinctKeys ((usages.filter fun r => r.model = m).map
        fun r => (r.model, r.userId)) :=
  calc ((globalStage1 usages).filter fun g => g.1.1 = m).map Prod.fst
      = ((globalStage1 usages).map Prod.fst).filter (fun k => decide (k.1 = m)) :=
        filter_fst_map (fun k => decide (k.1 = m)) (globalStage1 usages)
    _ = (distinctKeys (usages.map fun r => (r.model, r.userId))).filter
          (fun k => decide (k.1 = m)) := by rw [globalStage1_keys]
    _ = distinctKeys ((usages.map fun r => (r.model, r.userId)).filter
          (fun k => decide (k.1 = m))) := distinctKeys_filter _ _
    _ = distinctKeys ((usages.filter fun r => r.model = m).map
          fun r => (r.model, r.userId)) :=
        congrArg distinctKeys
          (map_filter_comm (fun r => (r.model, r.userId))
            (fun k => decide (k.1 = m)) usages)

/-- The example for claim C5: one user with records under two different models. -/
def exampleRecordsC5 : List UsageRecord :=
  [ ⟨1, 1, "A", ⟨60, 40, 100⟩, 0.01, 1⟩,
    ⟨1, 2, "B", ⟨6, 4, 10⟩, 0.001, 2⟩ ]

/-- Claim C5: `getGlobalStats` reports `users` per model as the number of
distinct `(model, owner)` pairs with that model, and `activeUsers` as the sum of
those per-model counts, i.e. the total number of distinct `(model, owner)` pairs
in the ledger; consequently a user with records under two different models
contributes 2 to `activeUsers`, as the concrete two-model-one-user example
shows (`activeUsers = 2`, each model reporting `users = 1`). -/
theorem getGlobalStats_users_counts (usages : List UsageRecord) :
    (getGlobalStats usages).activeUsers =
      ((getGlobalStats usages).modelUsage.map fun g => g.2.users).sum ∧
    (getGlobalStats usages).activeUsers =
      (distinctKeys (usages.map fun r => (r.model, r.userId))).length ∧
    (∀ m : String,
      (lookupUsage (getGlobalStats usages).modelUsage m).map ModelUsageAgg.users =
        (if (usages.filter fun r => r.model = m).isEmpty then none
         else some (distinctKeys ((usages.filter fun r => r.model = m).map
           fun r => (r.model, r.userId))).length)) ∧
    getGlobalStats exampleRecordsC5 =
      { totalTokens := 110, totalCost := 0.011, activeUsers := 2,
        modelUsage := [("A", ⟨100, 0.01, 1⟩), ("B", ⟨10, 0.001, 1⟩)] } := by
  refine ⟨rfl, ?_, ?_, ?_⟩
  · have h := fold_upsertUsers_sum_users (fun g : (String × Nat) × ModelAgg => g.1.1)
      (fun g => g.2.tokens) (fun g => g.2.cost) (globalStage1 usages) []
    simp only [List.map_nil, List.sum_nil, Nat.zero_add, zero_add] at h
    exact h.trans (globalStage1_length usages)
  · intro m
    have h1 : lookupUsage (globalStage2 usages) m =
        usageOfFold (fun g => g.2.tokens) (fun g => g.2.cost) none
          ((globalStage1 usages).filter fun g => g.1.1 = m) := by
      have h := lookupUsage_fold (fun g : (String × Nat) × ModelAgg => g.1.1)
        (fun g => g.2.tokens) (fun g => g.2.cost) (globalStage1 usages) [] m
      rw [show lookupUsage ([] : List (String × ModelUsageAgg)) m = none from rfl] at h
      exact h
    show (lookupUsage (globalStage2 usages) m).map ModelUsageAgg.users = _
    rw [h1, usageOfFold_none_users]
    by_cases hrs : (usages.filter fun r => r.model = m) = []
    · have hkeys : ((globalStage1 usages).filter fun g => g.1.1 = m).map Prod.fst = [] := by
        rw [stage1_filter_keys, hrs]
        rfl
      have hstage : ((globalStage1 usages).filter fun g => g.1.1 = m) = [] :=
        List.map_eq_nil_iff.mp hkeys
      simp [hstage, hrs]
    · have hkeys := stage1_filter_keys usages m
      have hne : ((usages.filter fun r => r.model = m).map
          fun r => (r.model, r.userId)) ≠ [] := by
        simpa [List.map_eq_nil_iff] using hrs
      have hdne : distinctKeys ((usages.filter fun r => r.model = m).map
          fun r => (r.model, r.userId)) ≠ [] := by
        intro hc
        exact hne ((distinctKeys_nil_iff _).mp hc)
      have hstne : ((globalStage1 usages).filter fun g => g.1.1 = m) ≠ [] := by
        intro hc
        rw [hc] at hkeys
        exact hdne hkeys.symm
      have hlen : ((globalStage1 usages).filter fun g => g.1.1 = m).length =
          (distinctKeys ((usages.filter fun r => r.model = m).map
            fun r => (r.model, r.userId))).length := by
        rw [← hkeys, List.length_map]
      simp only [List.isEmpty_iff, if_neg hstne, if_neg hrs, hlen]
  · norm_num [getGlobalStats, globalStage2, globalStage1, exampleRecordsC5,
      upsertAgg, upsertUsers, show ("A" : String) ≠ "B" from by decide]

/-- Error codes of the `AppError` subclasses created by the `createError`
factory in types/errors.ts. -/
inductive ErrCode where
  | authentication
  | authorization
  | validation
  | database
  | rateLimit
  | model
  | notFound
  | configuration
  | openRouter
  | telegram
  | unknown
deriving DecidableEq, Repr

/-- An `AppError` from types/errors.ts: its code together with its message
(status numbers and detail payloads are not needed by any claim). -/
structure AppError where
  code : ErrCode
  message : String
deriving DecidableEq, Repr

/-- The `createError` factory: build a fresh `AppError` of the given kind.
Note that it never passes an existing error through; a caught `AppError` only
contributes its message text to the new error. -/
def createError (code : ErrCode) (message : String) : AppError :=
  ⟨code, message⟩

namespace ErrorMessages

def RESOURCE_NOT_FOUND : String := "resource not found"

def MODEL_REQUEST : String := "making model request"

def DB_UPDATE : String := "updating database record"

end ErrorMessages

/-- `formatErrorMessage` from utils/error.utils.ts: `"Error <operation>: <error>"`
plus, when a context is given, `" (k1=v1, k2=v2)"`. -/
def formatErrorMessage (operation : String) (error : String)
    (context : List (String × String)) : String :=
  let message := "Error " ++ operation ++ ": " ++ error
  match context with
  | [] => message
  | _ => message ++ " (" ++
      String.intercalate ", " (context.map fun kv => kv.1 ++ "=" ++ kv.2) ++ ")"

/-- The persistent collections the conversation service touches: the ids of the
existing users, the conversation documents, and the usage-ledger rows. -/
structure DBState where
  users : List Nat
  convs : List Conversation
  usages : List UsageRecord
deriving DecidableEq, Repr

/-- `Conversation.findWithMessages` / `findById`: the stored conversation with
the given id, if any (`null` otherwise, reported as `none`). -/
def findConv (s : DBState) (conversationId : Nat) : Option Conversation :=
  s.convs.find? fun c => c.id = conversationId

/-- Persisting a saved conversation document back into its collection. -/
def replaceConv (s : DBState) (c : Conversation) : DBState :=
  { s with convs := s.convs.map fun x => if x.id = c.id then c else x }

/-- Mongoose validation of a message subdocument on save: its `model` path must
be in the schema enum `Object.keys(AVAILABLE_MODELS)`, and its `content` path is
`required`, which mongoose's required validator on a String path fails for the
empty string (the role enum is guaranteed by the `Role` type). -/
def validMessage (m : Message) : Bool :=
  validModel m.model && m.content != ""

/-- Mongoose validation of a conversation document on save: the `model` path
and every message subdocument must satisfy their schema enums; a `save` whose
document fails validation rejects and leaves the stored document unchanged. -/
def validConversation (c : Conversation) : Bool :=
  validModel c.model && c.messages.all validMessage

/-- The `usage` object `OpenRouterClient.createChatCompletion` resolves with
(token counts from the authoritative generation-stats lookup). -/
structure ProviderUsage where
  prompt_tokens : Nat
  completion_tokens : Nat
  total_tokens : Nat
deriving DecidableEq, Repr

/-- The value `OpenRouterClient.createChatCompletion` resolves with. -/
structure ProviderResult where
  content : String
  usage : ProviderUsage
  cost : ℚ
deriving DecidableEq, Repr

/-- The error the catch-all in `ConversationService.sendMessage` throws:
`createError('MODEL', formatErrorMessage(MODEL_REQUEST, error, {conversationId}))`
-- every internal failure is rewrapped with this MODEL code. -/
def wrapSendError (inner : String) (conversationId : Nat) : AppError :=
  createError .model (formatErrorMessage ErrorMessages.MODEL_REQUEST inner
    [("conversationId", toString conversationId)])

/-- `ConversationService.sendMessage`. The external model-provider call is
supplied as an oracle `provider` applied to the messages the service actually
sends (`conversation.getContext()` plus the pending user message); its `error`
outcome stands for a rejected `createChatCompletion` promise with that message.
The service: loads the conversation (`null` becomes a thrown NOT_FOUND);
sets the client model (`setModel` throws on an unrecognized model); builds the
user message; calls the provider; builds the assistant message; appends the two
messages with two saves (each save validating the document and persisting on
success); resolves the owner (missing owner becomes a thrown NOT_FOUND,
after the appends were already persisted); and appends one usage row. The
surrounding catch rewraps every thrown error via `wrapSendError`. The returned
state is whatever was persisted when the function finished or threw. -/
def sendMessage (s : DBState) (conversationId : Nat) (content : String)
    (provider : List Message → Except String ProviderResult) (now : Nat) :
    DBState × Except AppError (Message × Message) :=
  match findConv s conversationId with
  | none =>
      let inner := createError .notFound
        (formatErrorMessage ErrorMessages.RESOURCE_NOT_FOUND "Conversation not found"
          [("conversationId", toString conversationId)])
      (s, .error (wrapSendError inner.message conversationId))
  | some conversation =>
      if validModel conversation.model then
        let userMessage : Message :=
          { role := .user, content := content, timestamp := now,
            model := conversation.model, tokens := none, cost := none }
        match provider (conversation.getContext ++ [userMessage]) with
        | .error e => (s, .error (wrapSendError e conversationId))
        | .ok result =>
            let assistantMessage : Message :=
              { role := .assistant, content := result.content, timestamp := now,
                model := conversation.model,
                tokens := some ⟨result.usage.prompt_tokens,
                  result.usage.completion_tokens, result.usage.total_tokens⟩,
                cost := some result.cost }
            let conv1 := conversation.addMessage userMessage now
            if validConversation conv1 then
              let s1 := replaceConv s conv1
              let conv2 := conv1.addMessage assistantMessage now
              if validConversation conv2 then
                let s2 := replaceConv s1 conv2
                if s2.users.contains conversation.userId then
                  let record : UsageRecord :=
                    { userId := conversation.userId,
                      conversationId := conversationId,
                      model := conversation.model,
                      tokens := ⟨result.usage.prompt_tokens,
                        result.usage.completion_tokens, result.usage.total_tokens⟩,
                      cost := result.cost, timestamp := now }
                  ({ s2 with usages := s2.usages ++ [record] },
                   .ok (userMessage, assistantMessage))
                else
                  let inner := createError .notFound
                    (formatErrorMessage ErrorMessages.RESOURCE_NOT_FOUND "User not found"
                      [("conversationId", toString conversationId)])
                  (s2, .error (wrapSendError inner.message conversationId))
              else
                (s1, .error (wrapSendError "Conversation validation failed" conversationId))
            else
              (s, .error (wrapSendError "Conversation validation failed" conversationId))
      else
        (s, .error (wrapSendError ("Invalid model: " ++ conversation.model) conversationId))

/-- `ConversationService.clearHistory`: load by id (`null` becomes a thrown
NOT_FOUND), clear via the document method (which saves), return the updated
document; the catch-all rewraps every thrown error as a DATABASE error built
from `DB_UPDATE`. -/
def clearHistoryService (s : DBState) (conversationId : Nat) (now : Nat) :
    DBState × Except AppError Conversation :=
  match findConv s conversationId with
  | none =>
      let inner := createError .notFound
        (formatErrorMessage ErrorMessages.RESOURCE_NOT_FOUND "Conversation not found"
          [("conversationId", toString conversationId)])
      (s, .error (createError .database
        (formatErrorMessage ErrorMessages.DB_UPDATE inner.message
          [("conversationId", toString conversationId)])))
  | some conversation =>
      let conv1 := conversation.clearHistory now
      if validConversation conv1 then
        (replaceConv s conv1, .ok conv1)
      else
        (s, .error (createError .database
          (formatErrorMessage ErrorMessages.DB_UPDATE "Conversation validation failed"
            [("conversationId", toString conversationId)])))

/-- `ConversationService.updateModel`: load by id (`null` becomes a thrown
NOT_FOUND), then `conversation.updateModel(model)` -- set the `model` path and
save, where mongoose validates the schema enum and rejects an unrecognized
model without persisting -- then `openRouterClient.setModel(model)` (which
cannot throw any more once the save validated the model; the client's mutable
current-model field is outside the claims and not tracked here). The catch-all
rewraps every thrown error as a DATABASE error built from `DB_UPDATE`. -/
def updateModelService (s : DBState) (conversationId : Nat) (model : String) :
    DBState × Except AppError Conversation :=
  match findConv s conversationId with
  | none =>
      let inner := createError .notFound
        (formatErrorMessage ErrorMessages.RESOURCE_NOT_FOUND "Conversation not found"
          [("conversationId", toString conversationId)])
      (s, .error (createError .database
        (formatErrorMessage ErrorMessages.DB_UPDATE inner.message
          [("conversationId", toString conversationId), ("model", model)])))
  | some conversation =>
      let conv1 := conversation.updateModel model
      if validConversation conv1 then
        (replaceConv s conv1, .ok conv1)
      else
        (s, .error (createError .database
          (formatErrorMessage ErrorMessages.DB_UPDATE "Conversation validation failed"
            [("conversationId", toString conversationId), ("model", model)])))

/-- The code of the error in a service outcome, if it failed. -/
def errCode {β : Type} (r : Except AppError β) : Option ErrCode :=
  match r with
  | .error e => some e.code
  | .ok _ => none

/-- The message of the error in a service outcome, if it failed. -/
def errMessage {β : Type} (r : Except AppError β) : Option String :=
  match r with
  | .error e => some e.message
  | .ok _ => none

theorem find_replace (l : List Conversation) (id : Nat) (conv c : Conversation)
    (h : l.find? (fun x => x.id = id) = some conv) (hc : c.id = conv.id) :
    (l.map fun x => if x.id = c.id then c else x).find? (fun x => x.id = id) = some c := by
  induction l with
  | nil => simp at h
  | cons x xs ih =>
    by_cases hx : x.id = id
    · rw [List.find?_cons_of_pos xs (by simp [hx])] at h
      have hxc : x = conv := by simpa using h
      have hid : c.id = id := by rw [hc, ← hxc, hx]
      simp only [List.map_cons, if_pos (show x.id = c.id by rw [hxc, ← hc])]
      rw [List.find?_cons_of_pos _ (by simp [hid])]
    · rw [List.find?_cons_of_neg xs (by simp [hx])] at h
      simp only [List.map_cons]
      by_cases hxr : x.id = c.id
      · have hcid : ¬ c.id = id := by rw [← hxr]; exact hx
        rw [if_pos hxr, List.find?_cons_of_neg _ (by simp [hcid])]
        exact ih h
      · rw [if_neg hxr, List.find?_cons_of_neg _ (by simp [hx])]
        exact ih h

theorem findConv_replaceConv (s : DBState) (c : Conversation) (id : Nat)
    (conv : Conversation) (h : findConv s id = some conv) (hc : c.id = conv.id) :
    findConv (replaceConv s c) id = some c :=
  find_replace s.convs id conv c h hc

theorem sendMessage_eq_of_not_found (s : DBState) (conversationId : Nat)
    (content : String) (provider : List Message → Except String ProviderResult)
    (now : Nat) (hfind : findConv s conversationId = none) :
    sendMessage s conversationId content provider now =
      (s, .error (wrapSendError (createError .notFound
        (formatErrorMessage ErrorMessages.RESOURCE_NOT_FOUND "Conversation not found"
          [("conversationId", toString conversationId)])).message conversationId)) := by
  simp [sendMessage, hfind]

theorem sendMessage_eq_of_invalid_model (s : DBState) (conversationId : Nat)
    (content : String) (provider : List Message → Except String ProviderResult)
    (now : Nat) (conv : Conversation)
    (hfind : findConv s conversationId = some conv)
    (hv : validModel conv.model = false) :
    sendMessage s conversationId content provider now =
      (s, .error (wrapSendError ("Invalid model: " ++ conv.model) conversationId)) := by
  simp [sendMessage, hfind, hv]

theorem sendMessage_eq_of_provider_error (s : DBState) (conversationId : Nat)
    (content : String) (provider : List Message → Except String ProviderResult)
    (now : Nat) (conv : Conversation) (e : String)
    (hfind : findConv s conversationId = some conv)
    (hv : validModel conv.model = true)
    (hfail : provider (conv.getContext ++
      [{ role := .user, content := content, timestamp := now,
         model := conv.model, tokens := none, cost := none }]) = .error e) :
    sendMessage s conversationId content provider now =
      (s, .error (wrapSendError e conversationId)) := by
  simp [sendMessage, hfind, hv, hfail]

/-- Claim C2: when the model-provider call inside `sendMessage` fails, the
persistent state is returned unchanged -- in particular the conversation's
messages are untouched and no usage row is appended -- and the turn surfaces
an error. -/
theorem sendMessage_provider_failure_no_writes (s : DBState) (conversationId : Nat)
    (content : String) (now : Nat) (e : String)
    (provider : List Message → Except String ProviderResult)
    (hfail : ∀ msgs, provider msgs = .error e) :
    (sendMessage s conversationId content provider now).1 = s ∧
    ∃ err, (sendMessage s conversationId content provider now).2 = .error err := by
  cases hfind : findConv s conversationId with
  | none =>
    rw [sendMessage_eq_of_not_found s conversationId content provider now hfind]
    exact ⟨rfl, _, rfl⟩
  | some conv =>
    by_cases hv : validModel conv.model
    · rw [sendMessage_eq_of_provider_error s conversationId content provider now conv e
        hfind hv (hfail _)]
      exact ⟨rfl, _, rfl⟩
    · rw [sendMessage_eq_of_invalid_model s conversationId content provider now conv
        hfind (by simpa using hv)]
      exact ⟨rfl, _, rfl⟩

def stateC2 : DBState :=
  ⟨[1], [freshConversation 1 1 "openai/o3-mini" 0], []⟩

theorem sendMessage_provider_failure_no_writes_witness :
    (∀ msgs : List Message,
      (fun _ : List Message => (Except.error "network error" : Except String ProviderResult))
        msgs = Except.error "network error") ∧
    ((sendMessage stateC2 1 "hello" (fun _ => .error "network error") 0).1 = stateC2 ∧
     ∃ err, (sendMessage stateC2 1 "hello"
       (fun _ => .error "network error") 0).2 = .error err) :=
  ⟨fun _ => rfl,
   sendMessage_provider_failure_no_writes stateC2 1 "hello" 0 "network error"
     (fun _ => .error "network error") (fun _ => rfl)⟩

def emptyState : DBState := ⟨[], [], []⟩

/-- Claim C8, counterexample: on a state with no conversations, `sendMessage`
surfaces an error whose kind is MODEL -- the catch-all rewrapped the internal
NotFound -- so the claim that a NotFound error (and not some other kind) is
surfaced to the caller is false. -/
theorem sendMessage_missing_conv_cex :
    errCode (sendMessage emptyState 1 "hi" (fun _ => .error "x") 0).2 =
      some ErrCode.model ∧
    some ErrCode.model ≠ some ErrCode.notFound := by
  exact ⟨rfl, by decide⟩

/-- Claim C8 (amended): `sendMessage` on an id that resolves to no conversation
fails and surfaces an error to the caller (never silently swallowed) and leaves
the state unchanged, but the surfaced error kind is MODEL -- the service's
catch-all rewraps the internal NotFound, embedding its message, as the concrete
instance shows. -/
theorem sendMessage_missing_conv_wrapped (s : DBState) (conversationId : Nat)
    (content : String) (provider : List Message → Except String ProviderResult)
    (now : Nat) (hfind : findConv s conversationId = none) :
    ((sendMessage s conversationId content provider now).1 = s ∧
     ∃ err, (sendMessage s conversationId content provider now).2 = .error err ∧
       err.code = .model) ∧
    errMessage (sendMessage emptyState 1 "hi" (fun _ => .error "x") 0).2 =
      some ("Error making model request: Error resource not found: " ++
        "Conversation not found (conversationId=1) (conversationId=1)") := by
  rw [sendMessage_eq_of_not_found s conversationId content provider now hfind]
  exact ⟨⟨rfl, _, rfl, rfl⟩, by decide⟩

def stateC8 : DBState := ⟨[1], [], []⟩

theorem sendMessage_missing_conv_wrapped_witness :
    findConv stateC8 7 = none ∧
    (((sendMessage stateC8 7 "hello" (fun _ => .error "x") 0).1 = stateC8 ∧
      ∃ err, (sendMessage stateC8 7 "hello" (fun _ => .error "x") 0).2 = .error err ∧
        err.code = .model) ∧
     errMessage (sendMessage emptyState 1 "hi" (fun _ => .error "x") 0).2 =
       some ("Error making model request: Error resource not found: " ++
         "Conversation not found (conversationId=1) (conversationId=1)")) :=
  ⟨by decide,
   sendMessage_missing_conv_wrapped stateC8 7 "hello" (fun _ => .error "x") 0 (by decide)⟩

def stateC7 : DBState :=
  ⟨[1], [freshConversation 1 1 "openai/o3-mini" 0], []⟩

/-- Claim C7, counterexample: updating a stored conversation to the
unrecognized model `"gpt-5"` surfaces a DATABASE-kind error -- the service's
catch-all wraps the schema-validation rejection -- not a ModelError, so the
claim's stated error kind is false. -/
theorem updateModel_unrecognized_cex :
    errCode (updateModelService stateC7 1 "gpt-5").2 = some ErrCode.database ∧
    some ErrCode.database ≠ some ErrCode.model := by
  exact ⟨by decide, by decide⟩

theorem updateModel_eq_of_invalid (s : DBState) (conversationId : Nat)
    (model : String) (conversation : Conversation)
    (hfind : findConv s conversationId = some conversation)
    (hv : validConversation (conversation.updateModel model) = false) :
    updateModelService s conversationId model =
      (s, .error (createError .database
        (formatErrorMessage ErrorMessages.DB_UPDATE "Conversation validation failed"
          [("conversationId", toString conversationId), ("model", model)]))) := by
  simp [updateModelService, hfind, hv]

/-- Claim C7 (amended): `updateModel` with a model identifier outside
`AVAILABLE_MODELS` fails -- the save's schema enum validation rejects the
document -- and leaves the stored conversation (in particular its `model`)
unchanged, but the surfaced error is the service's DATABASE wrapper, not a
ModelError. -/
theorem updateModel_unrecognized_fails_database (s : DBState) (conversationId : Nat)
    (model : String) (conversation : Conversation)
    (hfind : findConv s conversationId = some conversation)
    (hbad : validModel model = false) :
    (updateModelService s conversationId model).1 = s ∧
    findConv (updateModelService s conversationId model).1 conversationId =
      some conversation ∧
    ∃ err, (updateModelService s conversationId model).2 = .error err ∧
      err.code = .database := by
  have hv : validConversation (conversation.updateModel model) = false := by
    simp [validConversation, Conversation.updateModel, hbad]
  rw [updateModel_eq_of_invalid s conversationId model conversation hfind hv]
  exact ⟨rfl, hfind, _, rfl, rfl⟩

theorem updateModel_unrecognized_fails_database_witness :
    findConv stateC7 1 = some (freshConversation 1 1 "openai/o3-mini" 0) ∧
    validModel "gpt-5" = false ∧
    ((updateModelService stateC7 1 "gpt-5").1 = stateC7 ∧
     findConv (updateModelService stateC7 1 "gpt-5").1 1 =
       some (freshConversation 1 1 "openai/o3-mini" 0) ∧
     ∃ err, (updateModelService stateC7 1 "gpt-5").2 = .error err ∧
       err.code = .database) :=
  ⟨by decide, by decide,
   updateModel_unrecognized_fails_database stateC7 1 "gpt-5"
     (freshConversation 1 1 "openai/o3-mini" 0) (by decide) (by decide)⟩

/-- Claim C9: clearing an existing conversation succeeds, empties its messages,
zeroes `totalTokens` and `totalCost`, leaves the conversation in existence
under its id with its model unchanged, and a subsequent `getContext` (default
limit) returns the empty sequence. -/
theorem clearHistory_clears_in_place (s : DBState) (conversationId : Nat) (now : Nat)
    (conversation : Conversation)
    (hfind : findConv s conversationId = some conversation)
    (hmodel : validModel conversation.model = true) :
    ∃ c : Conversation,
      (clearHistoryService s conversationId now).2 = .ok c ∧
      findConv (clearHistoryService s conversationId now).1 conversationId = some c ∧
      c.messages = [] ∧ c.totalTokens = 0 ∧ c.totalCost = 0 ∧
      c.model = conversation.model ∧ c.getContext = [] := by
  have hv : validConversation (conversation.clearHistory now) = true := by
    simp [validConversation, Conversation.clearHistory, recomputeTotals, hmodel]
  refine ⟨conversation.clearHistory now,
    by simp [clearHistoryService, hfind, hv], ?_, rfl, rfl, rfl, rfl, rfl⟩
  have h1 : (clearHistoryService s conversationId now).1 =
      replaceConv s (conversation.clearHistory now) := by
    simp [clearHistoryService, hfind, hv]
  rw [h1]
  exact findConv_replaceConv s _ conversationId conversation hfind rfl

def stateC9 : DBState :=
  ⟨[1],
   [{ id := 1, userId := 1, title := none,
      messages := [witnessMsgA,
        { role := .assistant, content := "sure", timestamp := 2,
          model := "openai/o3-mini", tokens := some ⟨3, 4, 7⟩, cost := some 1 }],
      model := "openai/o3-mini", totalTokens := 7, totalCost := 1,
      lastMessageAt := 2 }],
   []⟩

theorem clearHistory_clears_in_place_witness :
    findConv stateC9 1 = some (stateC9.convs.head (by decide)) ∧
    validModel (stateC9.convs.head (by decide)).model = true ∧
    (∃ c : Conversation,
      (clearHistoryService stateC9 1 5).2 = .ok c ∧
      findConv (clearHistoryService stateC9 1 5).1 1 = some c ∧
      c.messages = [] ∧ c.totalTokens = 0 ∧ c.totalCost = 0 ∧
      c.model = (stateC9.convs.head (by decide)).model ∧ c.getContext = []) :=
  ⟨by decide, by decide,
   clearHistory_clears_in_place stateC9 1 5 (stateC9.convs.head (by decide))
     (by decide) (by decide)⟩

theorem validConversation_addMessage (c : Conversation) (m : Message) (now : Nat)
    (hc : validConversation c = true) (hm : validMessage m = true) :
    validConversation (c.addMessage m now) = true := by
  simp only [validConversation, Conversation.addMessage, recomputeTotals,
    Bool.and_eq_true, List.all_append, List.all_cons, List.all_nil,
    Bool.and_true] at hc ⊢
  exact ⟨hc.1, hc.2, hm⟩

def convC3 : Conversation := freshConversation 1 1 "openai/o3-mini" 0

def stateC3 : DBState := ⟨[1], [convC3], []⟩

def resC3 : ProviderResult := ⟨"hi there", ⟨3, 4, 7⟩, 1⟩

/-- A provider result with empty assistant content, for the C3 counterexample. -/
def resC3e : ProviderResult := ⟨"", ⟨3, 4, 7⟩, 1⟩

/-- Claim C3, counterexample: a `sendMessage` whose provider invocation
succeeds but returns empty assistant content does not append two messages and
create one usage record -- the assistant save is rejected by the schema's
required-content validation, so the turn aborts with the catch-all MODEL
error, exactly one message (the user message) is persisted, and no usage
record is created. -/
theorem sendMessage_success_cex :
    errCode (sendMessage stateC3 1 "hello" (fun _ => .ok resC3e) 3).2 =
      some ErrCode.model ∧
    (sendMessage stateC3 1 "hello" (fun _ => .ok resC3e) 3).1.usages = [] ∧
    ((sendMessage stateC3 1 "hello" (fun _ => .ok resC3e) 3).1.convs.map
      fun c => c.messages.length) = [1] :=
  ⟨by decide, by decide, by decide⟩

/-- Claim C3 (amended): a `sendMessage` whose provider invocation succeeds, on
nonempty user text with nonempty returned assistant content, returns the user
and assistant messages, appends exactly those two messages to the stored
conversation -- the user message first, then the assistant message carrying the
provider's content, token usage and cost -- and appends exactly one usage
record whose `tokens.total` is the provider result's total token count. (The
nonemptiness hypotheses are forced by the schema's required `content` path:
an empty string fails the save's validation and aborts the turn, as the
counterexample shows.) -/
theorem sendMessage_success_two_appends_one_usage (s : DBState) (conversationId : Nat)
    (content : String) (now : Nat) (result : ProviderResult)
    (provider : List Message → Except String ProviderResult)
    (conversation : Conversation)
    (hfind : findConv s conversationId = some conversation)
    (hvalid : validConversation conversation = true)
    (huser : s.users.contains conversation.userId = true)
    (hcontent : content ≠ "")
    (hacontent : result.content ≠ "")
    (hok : ∀ msgs, provider msgs = .ok result) :
    ∃ userMessage assistantMessage : Message,
      (sendMessage s conversationId content provider now).2 =
        .ok (userMessage, assistantMessage) ∧
      userMessage.role = .user ∧ userMessage.content = content ∧
      assistantMessage.role = .assistant ∧ assistantMessage.content = result.content ∧
      assistantMessage.tokens = some ⟨result.usage.prompt_tokens,
        result.usage.completion_tokens, result.usage.total_tokens⟩ ∧
      (∃ stored : Conversation,
        findConv (sendMessage s conversationId content provider now).1 conversationId =
          some stored ∧
        stored.messages = conversation.messages ++ [userMessage, assistantMessage]) ∧
      (∃ record : UsageRecord,
        (sendMessage s conversationId content provider now).1.usages =
          s.usages ++ [record] ∧
        record.tokens.total = result.usage.total_tokens ∧
        record.userId = conversation.userId ∧
        record.model = conversation.model ∧
        record.cost = result.cost) := by
  have hmodel : validModel conversation.model = true := by
    have h := hvalid
    simp only [validConversation, Bool.and_eq_true] at h
    exact h.1
  have hv1 : validConversation (conversation.addMessage
      { role := .user, content := content, timestamp := now,
        model := conversation.model, tokens := none, cost := none } now) = true :=
    validConversation_addMessage _ _ _ hvalid
      (by simp [validMessage, hmodel, bne_iff_ne, hcontent])
  have hv2 : validConversation ((conversation.addMessage
      { role := .user, content := content, timestamp := now,
        model := conversation.model, tokens := none, cost := none } now).addMessage
      { role := .assistant, content := result.content, timestamp := now,
        model := conversation.model,
        tokens := some ⟨result.usage.prompt_tokens, result.usage.completion_tokens,
          result.usage.total_tokens⟩,
        cost := some result.cost } now) = true :=
    validConversation_addMessage _ _ _ hv1
      (by simp [validMessage, hmodel, bne_iff_ne, hacontent])
  have heq : sendMessage s conversationId content provider now =
      ({ replaceConv (replaceConv s (conversation.addMessage
            { role := .user, content := content, timestamp := now,
              model := conversation.model, tokens := none, cost := none } now))
            ((conversation.addMessage
              { role := .user, content := content, timestamp := now,
                model := conversation.model, tokens := none, cost := none } now).addMessage
              { role := .assistant, content := result.content, timestamp := now,
                model := conversation.model,
                tokens := some ⟨result.usage.prompt_tokens, result.usage.completion_tokens,
                  result.usage.total_tokens⟩,
                cost := some result.cost } now) with
          usages := s.usages ++
            [{ userId := conversation.userId, conversationId := conversationId,
               model := conversation.model,
               tokens := ⟨result.usage.prompt_tokens, result.usage.completion_tokens,
                 result.usage.total_tokens⟩,
               cost := result.cost, timestamp := now }] },
       .ok ({ role := .user, content := content, timestamp := now,
              model := conversation.model, tokens := none, cost := none },
            { role := .assistant, content := result.content, timestamp := now,
              model := conversation.model,
              tokens := some ⟨result.usage.prompt_tokens, result.usage.completion_tokens,
                result.usage.total_tokens⟩,
              cost := some result.cost })) := by
    simp only [sendMessage, hfind, hok, hmodel, hv1, hv2, replaceConv, huser, if_true]
  refine ⟨{ role := .user, content := content, timestamp := now,
            model := conversation.model, tokens := none, cost := none },
          { role := .assistant, content := result.content, timestamp := now,
            model := conversation.model,
            tokens := some ⟨result.usage.prompt_tokens, result.usage.completion_tokens,
              result.usage.total_tokens⟩,
            cost := some result.cost },
          by rw [heq], rfl, rfl, rfl, rfl, rfl,
          ⟨(conversation.addMessage
              { role := .user, content := content, timestamp := now,
                model := conversation.model, tokens := none, cost := none } now).addMessage
              { role := .assistant, content := result.content, timestamp := now,
                model := conversation.model,
                tokens := some ⟨result.usage.prompt_tokens, result.usage.completion_tokens,
                  result.usage.total_tokens⟩,
                cost := some result.cost } now, ?_, ?_⟩,
          ⟨{ userId := conversation.userId, conversationId := conversationId,
             model := conversation.model,
             tokens := ⟨result.usage.prompt_tokens, result.usage.completion_tokens,
               result.usage.total_tokens⟩,
             cost := result.cost, timestamp := now },
           by rw [heq], rfl, rfl, rfl, rfl⟩⟩
  · rw [heq]
    exact findConv_replaceConv _ _ _ _
      (findConv_replaceConv _ _ _ _ hfind rfl) rfl
  · simp [Conversation.addMessage, recomputeTotals]

theorem sendMessage_success_two_appends_one_usage_witness :
    findConv stateC3 1 = some convC3 ∧
    validConversation convC3 = true ∧
    stateC3.users.contains convC3.userId = true ∧
    "hello" ≠ "" ∧
    resC3.content ≠ "" ∧
    (∀ msgs : List Message,
      (fun _ : List Message => (Except.ok resC3 : Except String ProviderResult)) msgs =
        Except.ok resC3) ∧
    (∃ userMessage assistantMessage : Message,
      (sendMessage stateC3 1 "hello" (fun _ => .ok resC3) 3).2 =
        .ok (userMessage, assistantMessage) ∧
      userMessage.role = .user ∧ userMessage.content = "hello" ∧
      assistantMessage.role = .assistant ∧ assistantMessage.content = resC3.content ∧
      assistantMessage.tokens = some ⟨resC3.usage.prompt_tokens,
        resC3.usage.completion_tokens, resC3.usage.total_tokens⟩ ∧
      (∃ stored : Conversation,
        findConv (sendMessage stateC3 1 "hello" (fun _ => .ok resC3) 3).1 1 =
          some stored ∧
        stored.messages = convC3.messages ++ [userMessage, assistantMessage]) ∧
      (∃ record : UsageRecord,
        (sendMessage stateC3 1 "hello" (fun _ => .ok resC3) 3).1.usages =
          stateC3.usages ++ [record] ∧
        record.tokens.total = resC3.usage.total_tokens ∧
        record.userId = convC3.userId ∧
        record.model = convC3.model ∧
        record.cost = resC3.cost)) :=
  ⟨by decide, by decide, by decide, by decide, by decide, fun _ => rfl,
   sendMessage_success_two_appends_one_usage stateC3 1 "hello" 3 resC3
     (fun _ => .ok resC3) convC3 (by decide) (by decide) (by decide) (by decide)
     (by decide) (fun _ => rfl)⟩

end LLMChat
